import Mathlib

/-!
Verification development for the DatabaseCache component of
ColmapForVisSat (src/src/base/database_cache.h).

The repository slice consists of the single header database_cache.h.
The class DatabaseCache owns two identifier-keyed unordered maps
(cameras_, images_) and a CorrespondenceGraph instance, with inline
accessors (NumCameras, NumImages, Camera, Image, Cameras, Images,
ExistsCamera, ExistsImage) and the statistics routine GetStatsString
defined in the header.  The bodies of AddCamera, AddImage and Load are
only declared in the header (the corresponding .cc file is not part of
the slice); those operations are modelled from the specification, as
marked in their doc comments.

Modelling conventions:
  - an unordered map is embedded as an association list with unique
    keys; map.at(id) (which throws std::out_of_range when absent) is
    embedded as an Option-valued lookup, none modelling the throw;
  - a fatal precondition violation (CHECK-style abort) is modelled by
    an Option-valued operation returning none;
  - size_t values are embedded as Nat (the declaration of Load takes
    const size_t min_num_matches); the C++ implicit conversion of a
    signed 64-bit argument at a call site is made explicit below;
  - an out-of-bounds vector access inside GetStatsString is embedded
    as an Except error value, tagging which indexing expression fails;
  - the C++ double average in GetStatsString is embedded as an exact
    rational; it is a deterministic function of the sorted vector of
    summands, which is all the theorems below depend on.
-/

namespace colmap

/-- Camera record: identified by camera_id; intrinsic parameters are
opaque to the cache and therefore omitted. -/
structure Camera where
  camera_id : Nat
  deriving DecidableEq

/-- Image record: identifier, display name, referenced camera
identifier, and the number of 2D observations (as consumed by
GetStatsString via NumObservations()). -/
structure Image where
  image_id : Nat
  name : String
  camera_id : Nat
  num_observations : Nat
  deriving DecidableEq

/-- Accessor mirroring Image::NumObservations() used at
database_cache.h line 104. -/
def Image.NumObservations (im : Image) : Nat :=
  im.num_observations

/-- Modelled from the spec: a pairwise feature-match record of the
external database (base/database.h is not under src/).  Per the spec
it identifies a pair of image identifiers, a correspondence count and
a watermark flag. -/
structure MatchRecord where
  image_id1 : Nat
  image_id2 : Nat
  num_correspondences : Nat
  is_watermark : Bool
  deriving DecidableEq

/-- Modelled from the spec: the external persistent database, reduced
to the three enumeration interfaces the Loader consumes (all cameras,
all images, all pairwise match records). -/
structure Database where
  cameras : List Camera
  images : List Image
  match_records : List MatchRecord
  deriving DecidableEq

/-- Alias used where the record type Camera must be named inside the
DatabaseCache namespace (whose accessor of the same name shadows it). -/
abbrev CameraRec : Type := Camera

/-- Alias used where the record type Image must be named inside the
DatabaseCache namespace. -/
abbrev ImageRec : Type := Image

/-- Association-list lookup, embedding unordered_map find / at over
integer identifiers. -/
def findPair {α : Type} : List (Nat × α) → Nat → Option α
  | [], _ => none
  | (k, v) :: rest, id => if k = id then some v else findPair rest id

/-- Normalised unordered key of an image pair: the two identifiers in
ascending order. -/
def pairKey (a b : Nat) : Nat × Nat :=
  (min a b, max a b)

/-- Modelled from the spec: the Correspondence Index
(base/correspondence_graph.h is not under src/) is a weighted
undirected graph over image identifiers; edge weight is the number of
surviving correspondences of the pair.  Embedded as an association
list keyed by the normalised unordered pair. -/
structure CorrespondenceGraph where
  edges : List ((Nat × Nat) × Nat)
  deriving DecidableEq

/-- Association-list lookup over pair keys. -/
def findEdge : List ((Nat × Nat) × Nat) → (Nat × Nat) → Option Nat
  | [], _ => none
  | (k, n) :: rest, key => if k = key then some n else findEdge rest key

/-- Insert or accumulate a weighted edge under its normalised key. -/
def updateEdges : List ((Nat × Nat) × Nat) → (Nat × Nat) → Nat → List ((Nat × Nat) × Nat)
  | [], key, n => [(key, n)]
  | (k, m) :: rest, key, n =>
      if k = key then (k, m + n) :: rest else (k, m) :: updateEdges rest key n

/-- Modelled from the spec: edge insertion into the Correspondence
Index (insert/accumulate the edge for an image pair). -/
def CorrespondenceGraph.AddCorrespondences
    (g : CorrespondenceGraph) (a b n : Nat) : CorrespondenceGraph :=
  ⟨updateEdges g.edges (pairKey a b) n⟩

/-- Modelled from the spec: pairwise correspondence-count query of the
Correspondence Index, as consumed by GetStatsString at
database_cache.h line 125.  Absent pairs count zero. -/
def CorrespondenceGraph.NumCorrespondencesBetweenImages
    (g : CorrespondenceGraph) (a b : Nat) : Nat :=
  (findEdge g.edges (pairKey a b)).getD 0

/-- Membership of an (unordered) edge in the Correspondence Index. -/
def CorrespondenceGraph.ExistsEdge (g : CorrespondenceGraph) (a b : Nat) : Bool :=
  (findEdge g.edges (pairKey a b)).isSome

/-- The cached state: correspondence graph plus the two keyed maps,
mirroring the private fields at database_cache.h lines 148 to 151. -/
structure DatabaseCache where
  correspondence_graph_ : CorrespondenceGraph
  cameras_ : List (Nat × Camera)
  images_ : List (Nat × Image)
  deriving DecidableEq

/-- The default constructor DatabaseCache() produces the empty cache. -/
def DatabaseCache.empty : DatabaseCache :=
  ⟨⟨[]⟩, [], []⟩

/-- NumCameras (database_cache.h line 158): size of cameras_. -/
def DatabaseCache.NumCameras (c : DatabaseCache) : Nat :=
  c.cameras_.length

/-- NumImages (database_cache.h line 159): size of images_. -/
def DatabaseCache.NumImages (c : DatabaseCache) : Nat :=
  c.images_.length

/-- Camera accessor (database_cache.h lines 161 to 167):
cameras_.at(camera_id); none embeds the std::out_of_range throw. -/
def DatabaseCache.Camera (c : DatabaseCache) (camera_id : Nat) : Option CameraRec :=
  findPair c.cameras_ camera_id

/-- Image accessor (database_cache.h lines 169 to 175):
images_.at(image_id); none embeds the std::out_of_range throw. -/
def DatabaseCache.Image (c : DatabaseCache) (image_id : Nat) : Option ImageRec :=
  findPair c.images_ image_id

/-- Cameras (database_cache.h lines 177 to 179): returns a const
reference to cameras_.  Embedded as a const observer: the returned
view paired with the (unchanged) receiver state. -/
def DatabaseCache.Cameras (c : DatabaseCache) : List (Nat × CameraRec) × DatabaseCache :=
  (c.cameras_, c)

/-- Images (database_cache.h lines 181 to 183): returns a const
reference to images_, embedded as a const observer. -/
def DatabaseCache.Images (c : DatabaseCache) : List (Nat × ImageRec) × DatabaseCache :=
  (c.images_, c)

/-- ExistsCamera (database_cache.h lines 185 to 187):
cameras_.find(camera_id) != cameras_.end(). -/
def DatabaseCache.ExistsCamera (c : DatabaseCache) (camera_id : Nat) : Bool :=
  (findPair c.cameras_ camera_id).isSome

/-- ExistsImage (database_cache.h lines 189 to 191):
images_.find(image_id) != images_.end(). -/
def DatabaseCache.ExistsImage (c : DatabaseCache) (image_id : Nat) : Bool :=
  (findPair c.images_ image_id).isSome

/-- Modelled from the spec: the body of DatabaseCache::AddCamera is
not under src/ (only the declaration at database_cache.h line 80).
Per the spec it inserts a camera keyed by its identifier and fails
(fatal precondition) when the identifier already exists; none models
the fatal abort. -/
def DatabaseCache.AddCamera (c : DatabaseCache) (camera : CameraRec) : Option DatabaseCache :=
  if (findPair c.cameras_ camera.camera_id).isSome then none
  else some { c with cameras_ := c.cameras_ ++ [(camera.camera_id, camera)] }

/-- Modelled from the spec: the body of DatabaseCache::AddImage is not
under src/ (only the declaration at database_cache.h line 81).  Per
the spec it inserts an image keyed by its identifier and fails (fatal
precondition) when the identifier already exists. -/
def DatabaseCache.AddImage (c : DatabaseCache) (image : ImageRec) : Option DatabaseCache :=
  if (findPair c.images_ image.image_id).isSome then none
  else some { c with images_ := c.images_ ++ [(image.image_id, image)] }

/-- Name filter of the Loader: with an empty name list every image is
retained, otherwise only images whose name is listed. -/
def retainImage (image_names : List String) (im : Image) : Bool :=
  image_names.isEmpty || image_names.contains im.name

/-- Images of the database retained by the name filter. -/
def retainedImages (database : Database) (image_names : List String) : List Image :=
  database.images.filter (retainImage image_names)

/-- Match filter of the Loader: keep a record exactly when both
endpoints are retained, the record is not excluded as a watermark
pair, and the correspondence count reaches min_num_matches
(inclusive lower bound: strictly smaller counts are skipped). -/
def keepMatch (ids : List Nat) (min_num_matches : Nat) (ignore_watermarks : Bool)
    (m : MatchRecord) : Bool :=
  ids.contains m.image_id1 && ids.contains m.image_id2 &&
    !(ignore_watermarks && m.is_watermark) &&
    decide (min_num_matches ≤ m.num_correspondences)

/-- Stream the match records, inserting the retained ones into an
initially empty Correspondence Index. -/
def buildGraph (keep : MatchRecord → Bool) : List MatchRecord → CorrespondenceGraph
  | [] => ⟨[]⟩
  | m :: ms =>
      let g := buildGraph keep ms
      if keep m then g.AddCorrespondences m.image_id1 m.image_id2 m.num_correspondences
      else g

/-- Modelled from the spec: the body of DatabaseCache::Load is not
under src/ (only the declaration at database_cache.h lines 91 to 93).
Per the spec (section 4.3): determine the retained image set by the
name filter; load every camera referenced by a retained image; load
the retained images; stream match records, skipping a record when an
endpoint image is not retained, when ignore_watermarks holds and the
record is a watermark pair, or when its count is strictly below
min_num_matches; re-invocation on a non-empty cache is a fatal
precondition, modelled by none.  The min_num_matches parameter is
declared const size_t in the header and is therefore embedded as
Nat. -/
def DatabaseCache.Load (c : DatabaseCache) (database : Database) (min_num_matches : Nat)
    (ignore_watermarks : Bool) (image_names : List String) : Option DatabaseCache :=
  if c.cameras_.isEmpty && c.images_.isEmpty then
    some
      { cameras_ :=
          (database.cameras.filter fun cam =>
            (retainedImages database image_names).any fun im =>
              im.camera_id == cam.camera_id).map
            fun cam => (cam.camera_id, cam),
        images_ := (retainedImages database image_names).map fun im => (im.image_id, im),
        correspondence_graph_ :=
          buildGraph
            (keepMatch ((retainedImages database image_names).map Image.image_id)
              min_num_matches ignore_watermarks)
            database.match_records }
  else none

/-- C++ implicit integral conversion of a signed 64-bit call-site
argument to the size_t parameter of Load (database_cache.h line 91):
reduction modulo 2 to the 64. -/
def size_t_ofInt (i : Int) : Nat :=
  (i % (2 : Int) ^ 64).toNat

/-- Error positions of the two unchecked vector indexings inside
GetStatsString: element 0 of the per-view observation vector
(database_cache.h line 109) and element 0 of the pairwise-match vector
(database_cache.h line 131). -/
inductive StatsErr where
  | obsIndex
  | pairIndex
  deriving DecidableEq

/-- Sorting of an int vector by std::sort (database_cache.h lines 108
and 130): the sorted permutation of its input. -/
def sortedNat (l : List Nat) : List Nat :=
  List.insertionSort (· ≤ ·) l

/-- Per-view observation counts pushed at database_cache.h line 106,
in iteration order of images_. -/
def obsList (c : DatabaseCache) : List Nat :=
  c.images_.map fun p => p.2.NumObservations

/-- The double loop at database_cache.h lines 123 to 128: for every
index pair i < j of the image_ids vector, the pairwise correspondence
count of the two identifiers. -/
def pairCounts (cg : CorrespondenceGraph) : List Nat → List Nat
  | [] => []
  | x :: xs => (xs.map fun y => cg.NumCorrespondencesBetweenImages x y) ++ pairCounts cg xs

/-- Average of a list of counts (database_cache.h lines 112 to 116 and
134 to 138), at exact rational precision. -/
def ratAvg (l : List Nat) : ℚ :=
  ((l.map fun n => (n : ℚ)).sum) / (l.length : ℚ)

/-- Rendering of the six statistics into the returned buffer
(database_cache.h lines 117 to 119 and 139 to 141, with std::endl). -/
def renderStats (avgObs : ℚ) (minObs maxObs : Nat) (avgPair : ℚ)
    (minPair maxPair : Nat) : String :=
  "\nAvg. Per-view Observations: " ++ toString avgObs ++
  "\nMin. Per-view Observations: " ++ toString minObs ++
  "\nMax. Per-view Observations: " ++ toString maxObs ++
  "\nAvg. Pair-wise Matches: " ++ toString avgPair ++
  "\nMin. Pair-wise Matches: " ++ toString minPair ++
  "\nMax. Pair-wise Matches: " ++ toString maxPair ++ "\n"

/-- Statistics computation over the two sorted vectors, in source
order: the per-view vector is indexed first (element 0 at line 109,
back() at line 110), then the pairwise vector (element 0 at line 131,
back() at line 132).  An empty vector makes the indexing of element 0
out of bounds, embedded as the tagged error. -/
def statsFromSorted (obs pairs : List Nat) : Except StatsErr String :=
  match obs with
  | [] => Except.error StatsErr.obsIndex
  | o :: os =>
      match pairs with
      | [] => Except.error StatsErr.pairIndex
      | p :: ps =>
          Except.ok
            (renderStats (ratAvg (o :: os)) o ((o :: os).getLastD o)
              (ratAvg (p :: ps)) p ((p :: ps).getLastD p))

/-- GetStatsString (database_cache.h lines 96 to 144): collect the
per-view observation counts and the pairwise counts over all index
pairs of image_ids, sort both vectors, and render min, max and
average of each into the returned string. -/
def DatabaseCache.GetStatsString (c : DatabaseCache) : Except StatsErr String :=
  statsFromSorted (sortedNat (obsList c))
    (sortedNat (pairCounts c.correspondence_graph_ (c.images_.map Prod.fst)))

/-!  Helper lemmas about the association-list operations. -/

theorem findPair_isSome_iff {α : Type} (l : List (Nat × α)) (id : Nat) :
    (findPair l id).isSome = true ↔ id ∈ l.map Prod.fst := by
  induction l with
  | nil => simp [findPair]
  | cons p rest ih =>
      obtain ⟨k, v⟩ := p
      by_cases h : k = id
      · subst h; simp [findPair]
      · simp [findPair, h, ih, Ne.symm h]

theorem findPair_eq_none_iff {α : Type} (l : List (Nat × α)) (id : Nat) :
    findPair l id = none ↔ id ∉ l.map Prod.fst := by
  rw [← findPair_isSome_iff l id]
  cases findPair l id <;> simp

theorem findPair_of_mem {α : Type} {l : List (Nat × α)} {id : Nat} {v : α}
    (hmem : (id, v) ∈ l) (hnd : (l.map Prod.fst).Nodup) : findPair l id = some v := by
  induction l with
  | nil => simp at hmem
  | cons p rest ih =>
      obtain ⟨k, w⟩ := p
      simp only [List.map_cons, List.nodup_cons] at hnd
      rcases List.mem_cons.mp hmem with heq | htail
      · obtain ⟨hk, hv⟩ := Prod.mk.injEq .. ▸ heq
        simp_all [findPair]
      · have hne : k ≠ id := by
          intro hk
          subst hk
          exact hnd.1 (List.mem_map.mpr ⟨(k, v), htail, rfl⟩)
        simp [findPair, hne, ih htail hnd.2]

theorem mem_of_findPair {α : Type} {l : List (Nat × α)} {id : Nat} {v : α}
    (h : findPair l id = some v) : (id, v) ∈ l := by
  induction l with
  | nil => simp [findPair] at h
  | cons p rest ih =>
      obtain ⟨k, w⟩ := p
      by_cases hk : k = id
      · subst hk
        simp only [findPair, if_true, eq_self_iff_true, Option.some.injEq] at h
        subst h
        exact List.mem_cons_self _ _
      · simp only [findPair, if_neg hk] at h
        exact List.mem_cons_of_mem _ (ih h)

theorem findEdge_isSome_updateEdges (es : List ((Nat × Nat) × Nat)) (key k : Nat × Nat) (n : Nat) :
    (findEdge (updateEdges es key n) k).isSome = true ↔
      k = key ∨ (findEdge es k).isSome = true := by
  induction es with
  | nil =>
      by_cases h : k = key
      · subst h; simp [updateEdges, findEdge]
      · simp [updateEdges, findEdge, h, Ne.symm h]
  | cons p rest ih =>
      obtain ⟨k', m⟩ := p
      by_cases h1 : k' = key
      · subst h1
        by_cases h2 : k' = k
        · subst h2; simp [updateEdges, findEdge]
        · have h2' : ¬k = k' := fun he => h2 he.symm
          simp [updateEdges, findEdge, h2, h2']
      · by_cases h2 : k' = k
        · subst h2; simp [updateEdges, findEdge, h1]
        · simp [updateEdges, findEdge, h1, h2, ih]

theorem buildGraph_cons_pos {keep : MatchRecord → Bool} {m : MatchRecord}
    (ms : List MatchRecord) (h : keep m = true) :
    buildGraph keep (m :: ms) =
      (buildGraph keep ms).AddCorrespondences m.image_id1 m.image_id2 m.num_correspondences := by
  simp [buildGraph, h]

theorem buildGraph_cons_neg {keep : MatchRecord → Bool} {m : MatchRecord}
    (ms : List MatchRecord) (h : keep m = false) :
    buildGraph keep (m :: ms) = buildGraph keep ms := by
  simp [buildGraph, h]

theorem existsEdge_buildGraph (keep : MatchRecord → Bool) (ms : List MatchRecord) (a b : Nat) :
    (buildGraph keep ms).ExistsEdge a b = true ↔
      ∃ m ∈ ms, keep m = true ∧ pairKey m.image_id1 m.image_id2 = pairKey a b := by
  induction ms with
  | nil => simp [buildGraph, CorrespondenceGraph.ExistsEdge, findEdge]
  | cons m rest ih =>
      by_cases h : keep m = true
      · rw [buildGraph_cons_pos rest h]
        rw [show (buildGraph keep rest).AddCorrespondences m.image_id1 m.image_id2
              m.num_correspondences =
            ⟨updateEdges (buildGraph keep rest).edges (pairKey m.image_id1 m.image_id2)
              m.num_correspondences⟩ from rfl]
        simp only [CorrespondenceGraph.ExistsEdge] at ih ⊢
        rw [findEdge_isSome_updateEdges]
        constructor
        · rintro (hk | hrest)
          · exact ⟨m, List.mem_cons_self _ _, h, hk.symm⟩
          · obtain ⟨m', hm', hkeep, hkey⟩ := ih.mp hrest
            exact ⟨m', List.mem_cons_of_mem _ hm', hkeep, hkey⟩
        · rintro ⟨m', hm', hkeep, hkey⟩
          rcases List.mem_cons.mp hm' with rfl | htail
          · exact Or.inl hkey.symm
          · exact Or.inr (ih.mpr ⟨m', htail, hkeep, hkey⟩)
      · rw [buildGraph_cons_neg rest (Bool.not_eq_true _ ▸ h : keep m = false), ih]
        constructor
        · rintro ⟨m', hm', hkeep, hkey⟩
          exact ⟨m', List.mem_cons_of_mem _ hm', hkeep, hkey⟩
        · rintro ⟨m', hm', hkeep, hkey⟩
          rcases List.mem_cons.mp hm' with rfl | htail
          · exact absurd hkeep h
          · exact ⟨m', htail, hkeep, hkey⟩

/-!  Helper lemmas about sorting and the pairwise double loop. -/

theorem sortedNat_length (l : List Nat) : (sortedNat l).length = l.length :=
  (List.perm_insertionSort _ l).length_eq

theorem sortedNat_nil : sortedNat [] = [] := rfl

theorem sortedNat_eq_nil_iff (l : List Nat) : sortedNat l = [] ↔ l = [] := by
  constructor
  · intro h
    have := sortedNat_length l
    rw [h] at this
    exact List.length_eq_zero.mp this.symm
  · rintro rfl; rfl

theorem sortedNat_perm_eq {l1 l2 : List Nat} (h : l1.Perm l2) : sortedNat l1 = sortedNat l2 :=
  List.eq_of_perm_of_sorted
    ((List.perm_insertionSort _ l1).trans (h.trans (List.perm_insertionSort _ l2).symm))
    (List.sorted_insertionSort _ l1) (List.sorted_insertionSort _ l2)

theorem numCorrespondences_comm (cg : CorrespondenceGraph) (a b : Nat) :
    cg.NumCorrespondencesBetweenImages a b = cg.NumCorrespondencesBetweenImages b a := by
  simp [CorrespondenceGraph.NumCorrespondencesBetweenImages, pairKey, Nat.min_comm, Nat.max_comm]

theorem pairCounts_perm (cg : CorrespondenceGraph) {l1 l2 : List Nat} (h : l1.Perm l2) :
    (pairCounts cg l1).Perm (pairCounts cg l2) := by
  induction h with
  | nil => exact List.Perm.refl _
  | cons x h ih =>
      exact List.Perm.append (h.map _) ih
  | swap x y l =>
      simp only [pairCounts, List.map_cons, List.cons_append, List.append_assoc]
      rw [numCorrespondences_comm cg y x]
      refine List.Perm.cons _ ?_
      exact (List.perm_append_comm_assoc _ _ _)
  | trans _ _ ih1 ih2 => exact ih1.trans ih2

theorem pairCounts_single (cg : CorrespondenceGraph) (x : Nat) : pairCounts cg [x] = [] := by
  simp [pairCounts]

theorem pairCounts_two_ne_nil (cg : CorrespondenceGraph) (x y : Nat) (t : List Nat) :
    pairCounts cg (x :: y :: t) ≠ [] := by
  simp [pairCounts]

/-- A sequence of manual insertion calls: each element is one
AddCamera or one AddImage invocation, run left to right; any fatal
precondition violation aborts the whole sequence. -/
def runAdds : DatabaseCache → List (Sum CameraRec ImageRec) → Option DatabaseCache
  | c, [] => some c
  | c, Sum.inl cam :: ops =>
      match c.AddCamera cam with
      | none => none
      | some c1 => runAdds c1 ops
  | c, Sum.inr im :: ops =>
      match c.AddImage im with
      | none => none
      | some c1 => runAdds c1 ops

theorem mem_map_fst_iff {α : Type} (l : List (Nat × α)) (id : Nat) :
    id ∈ l.map Prod.fst ↔ ∃ v, (id, v) ∈ l := by
  constructor
  · intro h
    obtain ⟨p, hp, hfst⟩ := List.mem_map.mp h
    exact ⟨p.2, by rwa [show (id, p.2) = p from by rw [← hfst]] ⟩
  · rintro ⟨v, hv⟩
    exact List.mem_map.mpr ⟨(id, v), hv, rfl⟩

theorem addCamera_none_iff (c : DatabaseCache) (cam : CameraRec) :
    c.AddCamera cam = none ↔ c.ExistsCamera cam.camera_id = true := by
  by_cases h : (findPair c.cameras_ cam.camera_id).isSome = true
  · simp [DatabaseCache.AddCamera, DatabaseCache.ExistsCamera, h]
  · simp [DatabaseCache.AddCamera, DatabaseCache.ExistsCamera, h]

theorem addImage_none_iff (c : DatabaseCache) (im : ImageRec) :
    c.AddImage im = none ↔ c.ExistsImage im.image_id = true := by
  by_cases h : (findPair c.images_ im.image_id).isSome = true
  · simp [DatabaseCache.AddImage, DatabaseCache.ExistsImage, h]
  · simp [DatabaseCache.AddImage, DatabaseCache.ExistsImage, h]

theorem addCamera_some (c : DatabaseCache) (cam : CameraRec) (c1 : DatabaseCache)
    (h : c.AddCamera cam = some c1) :
    findPair c.cameras_ cam.camera_id = none ∧
      c1.cameras_ = c.cameras_ ++ [(cam.camera_id, cam)] ∧
      c1.images_ = c.images_ ∧ c1.correspondence_graph_ = c.correspondence_graph_ := by
  by_cases hp : (findPair c.cameras_ cam.camera_id).isSome = true
  · simp [DatabaseCache.AddCamera, hp] at h
  · simp only [DatabaseCache.AddCamera, hp, if_false, Bool.false_eq_true,
      Option.some.injEq] at h
    subst h
    refine ⟨?_, rfl, rfl, rfl⟩
    cases hf : findPair c.cameras_ cam.camera_id with
    | none => rfl
    | some v => rw [hf] at hp; simp at hp

theorem addImage_some (c : DatabaseCache) (im : ImageRec) (c1 : DatabaseCache)
    (h : c.AddImage im = some c1) :
    findPair c.images_ im.image_id = none ∧
      c1.images_ = c.images_ ++ [(im.image_id, im)] ∧
      c1.cameras_ = c.cameras_ ∧ c1.correspondence_graph_ = c.correspondence_graph_ := by
  by_cases hp : (findPair c.images_ im.image_id).isSome = true
  · simp [DatabaseCache.AddImage, hp] at h
  · simp only [DatabaseCache.AddImage, hp, if_false, Bool.false_eq_true,
      Option.some.injEq] at h
    subst h
    refine ⟨?_, rfl, rfl, rfl⟩
    cases hf : findPair c.images_ im.image_id with
    | none => rfl
    | some v => rw [hf] at hp; simp at hp

theorem nodup_append_key {α : Type} (l : List (Nat × α)) (id : Nat) (v : α)
    (hnd : (l.map Prod.fst).Nodup) (habs : id ∉ l.map Prod.fst) :
    ((l ++ [(id, v)]).map Prod.fst).Nodup := by
  rw [List.map_append]
  have hperm : ((l.map Prod.fst) ++ [id]).Perm (id :: l.map Prod.fst) :=
    List.perm_append_singleton _ _
  exact hperm.nodup_iff.mpr (List.nodup_cons.mpr ⟨habs, hnd⟩)

theorem runAdds_invariants (ops : List (Sum CameraRec ImageRec)) :
    ∀ (c c' : DatabaseCache), runAdds c ops = some c' →
      ((c.cameras_.map Prod.fst).Nodup → (c.images_.map Prod.fst).Nodup →
        (c'.cameras_.map Prod.fst).Nodup ∧ (c'.images_.map Prod.fst).Nodup) ∧
      c'.NumCameras = c.NumCameras + ops.countP Sum.isLeft ∧
      c'.NumImages = c.NumImages + ops.countP Sum.isRight ∧
      c'.correspondence_graph_ = c.correspondence_graph_ := by
  induction ops with
  | nil =>
      intro c c' h
      simp only [runAdds, Option.some.injEq] at h
      subst h
      refine ⟨fun h1 h2 => ⟨h1, h2⟩, ?_, ?_, rfl⟩ <;> simp [List.countP_nil]
  | cons op ops ih =>
      intro c c' h
      cases op with
      | inl cam =>
          cases hAdd : c.AddCamera cam with
          | none => rw [runAdds, hAdd] at h; exact absurd h (by simp)
          | some c1 =>
              rw [runAdds, hAdd] at h
              obtain ⟨hnone, hcam, him, hg⟩ := addCamera_some c cam c1 hAdd
              obtain ⟨hnd, hk, hm, hgr⟩ := ih c1 c' h
              refine ⟨?_, ?_, ?_, ?_⟩
              · intro hndc hndi
                exact hnd
                  (hcam ▸ nodup_append_key _ _ _ hndc ((findPair_eq_none_iff _ _).mp hnone))
                  (him ▸ hndi)
              · rw [hk, DatabaseCache.NumCameras, DatabaseCache.NumCameras, hcam,
                  List.countP_cons]
                simp [List.length_append, Nat.add_comm, Nat.add_assoc, Nat.add_left_comm]
              · rw [hm, DatabaseCache.NumImages, DatabaseCache.NumImages, him,
                  List.countP_cons]
                simp
              · rw [hgr, hg]
      | inr im =>
          cases hAdd : c.AddImage im with
          | none => rw [runAdds, hAdd] at h; exact absurd h (by simp)
          | some c1 =>
              rw [runAdds, hAdd] at h
              obtain ⟨hnone, him, hcam, hg⟩ := addImage_some c im c1 hAdd
              obtain ⟨hnd, hk, hm, hgr⟩ := ih c1 c' h
              refine ⟨?_, ?_, ?_, ?_⟩
              · intro hndc hndi
                exact hnd (hcam ▸ hndc)
                  (him ▸ nodup_append_key _ _ _ hndi ((findPair_eq_none_iff _ _).mp hnone))
              · rw [hk, DatabaseCache.NumCameras, DatabaseCache.NumCameras, hcam,
                  List.countP_cons]
                simp
              · rw [hm, DatabaseCache.NumImages, DatabaseCache.NumImages, him,
                  List.countP_cons]
                simp [List.length_append, Nat.add_comm, Nat.add_assoc, Nat.add_left_comm]
              · rw [hgr, hg]

/-!  Helper lemmas about GetStatsString and Load. -/

theorem stats_images_nil (c : DatabaseCache) (h : c.images_ = []) :
    c.GetStatsString = Except.error StatsErr.obsIndex := by
  rw [DatabaseCache.GetStatsString]
  rw [show obsList c = [] from by rw [obsList, h]; rfl]
  rfl

theorem stats_images_single (c : DatabaseCache) (p : Nat × ImageRec) (h : c.images_ = [p]) :
    c.GetStatsString = Except.error StatsErr.pairIndex := by
  rw [DatabaseCache.GetStatsString]
  rw [show sortedNat (obsList c) = [p.2.NumObservations] from by rw [obsList, h]; rfl]
  rw [show c.images_.map Prod.fst = [p.1] from by rw [h]; rfl]
  rw [pairCounts_single, sortedNat_nil]
  rfl

theorem stats_ok_of_two (c : DatabaseCache) (h : 2 ≤ c.images_.length) :
    ∃ s, c.GetStatsString = Except.ok s := by
  obtain ⟨p, rest, himg⟩ : ∃ p rest, c.images_ = p :: rest := by
    cases hh : c.images_ with
    | nil => rw [hh] at h; simp at h
    | cons a b => exact ⟨a, b, rfl⟩
  obtain ⟨q, t, hrest⟩ : ∃ q t, rest = q :: t := by
    cases hh : rest with
    | nil => rw [himg, hh] at h; simp at h
    | cons a b => exact ⟨a, b, rfl⟩
  have hobs_ne : sortedNat (obsList c) ≠ [] := by
    rw [Ne, sortedNat_eq_nil_iff, obsList, himg, hrest]
    simp
  obtain ⟨o, os, ho⟩ := List.exists_cons_of_ne_nil hobs_ne
  have hpair_ne :
      sortedNat (pairCounts c.correspondence_graph_ (c.images_.map Prod.fst)) ≠ [] := by
    rw [Ne, sortedNat_eq_nil_iff, himg, hrest, List.map_cons, List.map_cons]
    exact pairCounts_two_ne_nil _ _ _ _
  obtain ⟨w, ws, hw⟩ := List.exists_cons_of_ne_nil hpair_ne
  rw [DatabaseCache.GetStatsString, ho, hw]
  exact ⟨_, rfl⟩

theorem load_some_fields (c : DatabaseCache) (db : Database) (minm : Nat) (ign : Bool)
    (names : List String) (c' : DatabaseCache) (h : c.Load db minm ign names = some c') :
    c'.images_ = (retainedImages db names).map (fun im => (im.image_id, im)) ∧
      c'.correspondence_graph_ =
        buildGraph (keepMatch ((retainedImages db names).map Image.image_id) minm ign)
          db.match_records := by
  by_cases hc : (c.cameras_.isEmpty && c.images_.isEmpty) = true
  · simp only [DatabaseCache.Load, hc, if_true, Option.some.injEq] at h
    rw [← h]
    exact ⟨rfl, rfl⟩
  · simp [DatabaseCache.Load, hc] at h

theorem exists_image_of_retained (db : Database) (names : List String) (c' : DatabaseCache)
    (himg : c'.images_ = (retainedImages db names).map (fun im => (im.image_id, im)))
    (id : Nat) :
    c'.ExistsImage id = true ↔ id ∈ (retainedImages db names).map Image.image_id := by
  rw [DatabaseCache.ExistsImage, findPair_isSome_iff, himg, List.map_map]
  rfl

theorem keepMatch_true_iff (ids : List Nat) (minm : Nat) (ign : Bool) (m : MatchRecord) :
    keepMatch ids minm ign m = true ↔
      m.image_id1 ∈ ids ∧ m.image_id2 ∈ ids ∧
        ¬(ign = true ∧ m.is_watermark = true) ∧ minm ≤ m.num_correspondences := by
  cases ign <;> cases hwm : m.is_watermark <;>
    simp [keepMatch, Bool.and_eq_true, and_assoc, hwm]

/-!  Concrete fixtures used by witnesses (the synthetic database of
spec section 8: images A, B, C with matches A-B:10 not watermark,
B-C:2 watermark, A-C:5 not watermark). -/

def camA : Camera := ⟨101⟩

def camB : Camera := ⟨102⟩

def camC : Camera := ⟨103⟩

def imA : Image := ⟨1, "A", 101, 30⟩

def imB : Image := ⟨2, "B", 102, 20⟩

def imC : Image := ⟨3, "C", 103, 10⟩

def dbA : Database :=
  ⟨[camA, camB, camC], [imA, imB, imC],
    [⟨1, 2, 10, false⟩, ⟨2, 3, 2, true⟩, ⟨1, 3, 5, false⟩]⟩

def loadedA : DatabaseCache :=
  (DatabaseCache.empty.Load dbA 3 true []).getD DatabaseCache.empty

def opsM : List (Sum CameraRec ImageRec) :=
  [Sum.inl camA, Sum.inl camB, Sum.inr imA, Sum.inr imB, Sum.inr imC]

def builtM : DatabaseCache :=
  (runAdds DatabaseCache.empty opsM).getD DatabaseCache.empty

def cacheD : DatabaseCache :=
  ⟨⟨[]⟩, [(101, camA), (102, camB)], [(1, imA)]⟩

def cacheTwo1 : DatabaseCache :=
  ⟨⟨[((1, 2), 7)]⟩, [], [(1, imA), (2, imB)]⟩

def cacheTwo2 : DatabaseCache :=
  ⟨⟨[((1, 2), 7)]⟩, [], [(2, imB), (1, imA)]⟩

/-!  Claim theorems. -/

/-- C1: After a successful Load, an edge is present in the
Correspondence Index exactly when some streamed match record joins the
two images, both endpoint images are retained in the cache, the record
is not excluded as a watermark pair (when ignore_watermarks is true),
and its correspondence count is at least min_num_matches; moreover a
count exactly equal to min_num_matches passes the count filter and a
count one below the threshold is always dropped. -/
theorem load_match_filter_iff (c : DatabaseCache) (db : Database) (minm : Nat) (ign : Bool)
    (names : List String) (c' : DatabaseCache) (h : c.Load db minm ign names = some c') :
    (∀ a b : Nat,
      c'.correspondence_graph_.ExistsEdge a b = true ↔
        ∃ m ∈ db.match_records,
          pairKey m.image_id1 m.image_id2 = pairKey a b ∧
          c'.ExistsImage m.image_id1 = true ∧ c'.ExistsImage m.image_id2 = true ∧
          ¬(ign = true ∧ m.is_watermark = true) ∧ minm ≤ m.num_correspondences) ∧
    (∀ (ids : List Nat) (m : MatchRecord), m.num_correspondences = minm →
      keepMatch ids minm ign m =
        (ids.contains m.image_id1 && ids.contains m.image_id2 && !(ign && m.is_watermark))) ∧
    (∀ (ids : List Nat) (m : MatchRecord), m.num_correspondences + 1 = minm →
      keepMatch ids minm ign m = false) := by
  obtain ⟨himg, hg⟩ := load_some_fields c db minm ign names c' h
  refine ⟨?_, ?_, ?_⟩
  · intro a b
    rw [hg, existsEdge_buildGraph]
    constructor
    · rintro ⟨m, hm, hkeep, hkey⟩
      rw [keepMatch_true_iff] at hkeep
      obtain ⟨h1, h2, h3, h4⟩ := hkeep
      exact ⟨m, hm, hkey, (exists_image_of_retained db names c' himg _).mpr h1,
        (exists_image_of_retained db names c' himg _).mpr h2, h3, h4⟩
    · rintro ⟨m, hm, hkey, h1, h2, h3, h4⟩
      refine ⟨m, hm, ?_, hkey⟩
      rw [keepMatch_true_iff]
      exact ⟨(exists_image_of_retained db names c' himg _).mp h1,
        (exists_image_of_retained db names c' himg _).mp h2, h3, h4⟩
  · intro ids m hcnt
    subst hcnt
    simp [keepMatch]
  · intro ids m hcnt
    have hlt : ¬(minm ≤ m.num_correspondences) := by omega
    simp [keepMatch, hlt]

/-- Witness for C1 on the synthetic database of spec section 8: after
loading with min_num_matches 3 and watermark exclusion, the pair of
images 1 and 2 (count 10) has an edge. -/
theorem load_match_filter_iff_witness :
    loadedA.correspondence_graph_.ExistsEdge 1 2 = true :=
  ((load_match_filter_iff DatabaseCache.empty dbA 3 true [] loadedA (by decide)).1 1 2).mpr
    (by decide)

/-- C2: the keyed accessors Camera and Image fail (out-of-range)
exactly when the identifier is absent from the respective mapping, and
return the stored record when it is present. -/
theorem lookup_not_found_iff_absent (c : DatabaseCache) (id : Nat) :
    (c.Camera id = none ↔ id ∉ c.cameras_.map Prod.fst) ∧
    (c.Image id = none ↔ id ∉ c.images_.map Prod.fst) ∧
    (∀ v, (id, v) ∈ c.cameras_ → (c.cameras_.map Prod.fst).Nodup → c.Camera id = some v) ∧
    (∀ v, (id, v) ∈ c.images_ → (c.images_.map Prod.fst).Nodup → c.Image id = some v) :=
  ⟨findPair_eq_none_iff _ _, findPair_eq_none_iff _ _,
    fun _ hm hnd => findPair_of_mem hm hnd, fun _ hm hnd => findPair_of_mem hm hnd⟩

/-- Witness for C2: looking up a present camera identifier returns the
stored record. -/
theorem lookup_not_found_iff_absent_witness : cacheD.Camera 101 = some camA :=
  (lookup_not_found_iff_absent cacheD 101).2.2.1 camA (by decide) (by decide)

/-- C3: AddCamera and AddImage fail as a fatal precondition exactly
when the identifier already exists, and after any sequence of
successful manual insertions starting from the empty cache every
camera and image identifier appears in its mapping exactly once. -/
theorem add_duplicate_fatal_and_unique_keys :
    (∀ (c : DatabaseCache) (cam : CameraRec),
        c.AddCamera cam = none ↔ c.ExistsCamera cam.camera_id = true) ∧
    (∀ (c : DatabaseCache) (im : ImageRec),
        c.AddImage im = none ↔ c.ExistsImage im.image_id = true) ∧
    (∀ (ops : List (Sum CameraRec ImageRec)) (c' : DatabaseCache),
        runAdds DatabaseCache.empty ops = some c' →
          (c'.cameras_.map Prod.fst).Nodup ∧ (c'.images_.map Prod.fst).Nodup) := by
  refine ⟨addCamera_none_iff, addImage_none_iff, ?_⟩
  intro ops c' h
  exact (runAdds_invariants ops DatabaseCache.empty c' h).1
    (by simp [DatabaseCache.empty]) (by simp [DatabaseCache.empty])

/-- Witness for C3: a successful five-step manual insertion sequence
leaves both key lists without duplicates. -/
theorem add_duplicate_fatal_and_unique_keys_witness :
    (builtM.cameras_.map Prod.fst).Nodup ∧ (builtM.images_.map Prod.fst).Nodup :=
  add_duplicate_fatal_and_unique_keys.2.2 opsM builtM (by decide)

/-- C4: invoking Load on a cache that is already non-empty (for
example after a first successful Load) is rejected as a fatal
precondition instead of merging. -/
theorem double_load_rejected (c0 : DatabaseCache) (db1 : Database) (minm1 : Nat) (ign1 : Bool)
    (names1 : List String) (c : DatabaseCache) (db2 : Database) (minm2 : Nat) (ign2 : Bool)
    (names2 : List String)
    (_hfirst : c0.Load db1 minm1 ign1 names1 = some c)
    (hne : c.cameras_ ≠ [] ∨ c.images_ ≠ []) :
    c.Load db2 minm2 ign2 names2 = none := by
  have h1 : (c.cameras_.isEmpty && c.images_.isEmpty) = false := by
    rcases hne with h | h
    · rcases hc : c.cameras_ with _ | ⟨a, l⟩
      · exact absurd hc h
      · simp [hc]
    · rcases hc : c.images_ with _ | ⟨a, l⟩
      · exact absurd hc h
      · simp [hc]
  simp [DatabaseCache.Load, h1]

/-- Witness for C4: reloading the cache populated from the synthetic
database is rejected. -/
theorem double_load_rejected_witness : loadedA.Load dbA 3 true [] = none :=
  double_load_rejected DatabaseCache.empty dbA 3 true [] loadedA dbA 3 true []
    (by decide) (Or.inr (by decide))

/-- C5: ExistsCamera and ExistsImage are total boolean membership
tests: true exactly when the identifier is a key of the respective
mapping. -/
theorem exists_queries_total_membership (c : DatabaseCache) (id : Nat) :
    (c.ExistsCamera id = true ↔ ∃ cam, (id, cam) ∈ c.cameras_) ∧
    (c.ExistsImage id = true ↔ ∃ im, (id, im) ∈ c.images_) := by
  constructor
  · rw [DatabaseCache.ExistsCamera, findPair_isSome_iff]
    exact mem_map_fst_iff _ _
  · rw [DatabaseCache.ExistsImage, findPair_isSome_iff]
    exact mem_map_fst_iff _ _

/-- C6 counterexample: the min_num_matches parameter of Load is
declared const size_t (database_cache.h line 91), so a negative
call-site argument undergoes the C++ implicit conversion modulo 2 to
the 64 and Load does not fail: here the negative argument -1 is
converted and the call succeeds, contradicting the claim that Load
fails whenever its min_num_matches argument is negative. -/
theorem negative_min_num_matches_cex :
    ((-1 : Int) < 0) ∧
      (DatabaseCache.empty.Load dbA (size_t_ofInt (-1)) false []).isSome = true :=
  ⟨by decide, by decide⟩

/-- C6 amended: since the min_num_matches parameter has the unsigned
type size_t, no negative value ever reaches Load; a negative call-site
argument is converted modulo 2 to the 64 and Load on an empty cache
succeeds with the converted threshold instead of raising a fatal
precondition. -/
theorem negative_min_converted_not_fatal (i : Int) (_hneg : i < 0) (db : Database)
    (ign : Bool) (names : List String) :
    (DatabaseCache.empty.Load db (size_t_ofInt i) ign names).isSome = true := by
  simp [DatabaseCache.Load, DatabaseCache.empty]

/-- Witness for the amended C6 at the concrete negative argument -7. -/
theorem negative_min_converted_not_fatal_witness :
    (DatabaseCache.empty.Load dbA (size_t_ofInt (-7)) true []).isSome = true :=
  negative_min_converted_not_fatal (-7) (by decide) dbA true []

/-- C7: Cameras and Images return exactly the entries of the full
mapping, and as const observers they leave the cache unchanged, so no
insertion or removal can happen through the returned view. -/
theorem bulk_views_exact_and_const (c : DatabaseCache) :
    (c.Cameras).1 = c.cameras_ ∧ (c.Cameras).2 = c ∧
      (c.Images).1 = c.images_ ∧ (c.Images).2 = c :=
  ⟨rfl, rfl, rfl, rfl⟩

/-- C8: NumCameras and NumImages return the sizes of the two mappings,
and after a successful sequence of manual insertions on a fresh cache
the sizes equal the counts of AddCamera and AddImage calls, with an
empty correspondence index. -/
theorem size_accessors_and_manual_adds :
    (∀ c : DatabaseCache, c.NumCameras = c.cameras_.length ∧ c.NumImages = c.images_.length) ∧
    (∀ (ops : List (Sum CameraRec ImageRec)) (c' : DatabaseCache),
        runAdds DatabaseCache.empty ops = some c' →
          c'.NumCameras = ops.countP Sum.isLeft ∧
            c'.NumImages = ops.countP Sum.isRight ∧
            c'.correspondence_graph_.edges = []) := by
  refine ⟨fun c => ⟨rfl, rfl⟩, ?_⟩
  intro ops c' h
  obtain ⟨_, hk, hm, hg⟩ := runAdds_invariants ops DatabaseCache.empty c' h
  refine ⟨?_, ?_, ?_⟩
  · rw [hk]
    simp [DatabaseCache.empty, DatabaseCache.NumCameras]
  · rw [hm]
    simp [DatabaseCache.empty, DatabaseCache.NumImages]
  · rw [hg]
    rfl

/-- Witness for C8: two manual AddCamera calls and three manual
AddImage calls yield sizes two and three and no edges. -/
theorem size_accessors_and_manual_adds_witness :
    builtM.NumCameras = 2 ∧ builtM.NumImages = 3 ∧ builtM.correspondence_graph_.edges = [] := by
  obtain ⟨h1, h2, h3⟩ := size_accessors_and_manual_adds.2 opsM builtM (by decide)
  refine ⟨?_, ?_, h3⟩
  · rw [h1]; decide
  · rw [h2]; decide

/-- C9: GetStatsString hits the out-of-bounds indexing of element 0 of
the per-view observation vector exactly when the image mapping is
empty, hits the indexing of element 0 of the pairwise-match vector
exactly when it holds one image, and returns a string exactly when the
cache holds at least two images. -/
theorem stats_oob_below_two_images (c : DatabaseCache) :
    (c.GetStatsString = Except.error StatsErr.obsIndex ↔ c.NumImages = 0) ∧
    (c.GetStatsString = Except.error StatsErr.pairIndex ↔ c.NumImages = 1) ∧
    ((∃ s, c.GetStatsString = Except.ok s) ↔ 2 ≤ c.NumImages) := by
  rcases hh : c.images_ with _ | ⟨p, _ | ⟨q, t⟩⟩
  · have hG := stats_images_nil c hh
    rw [hG, DatabaseCache.NumImages, hh]
    exact ⟨by simp, by simp, by simp⟩
  · have hG := stats_images_single c p hh
    rw [hG, DatabaseCache.NumImages, hh]
    exact ⟨by simp, by simp, by simp⟩
  · obtain ⟨s, hG⟩ := stats_ok_of_two c
      (by rw [hh, List.length_cons, List.length_cons]; omega)
    rw [hG, DatabaseCache.NumImages, hh]
    refine ⟨by simp, by simp, ?_⟩
    constructor
    · intro _
      rw [List.length_cons, List.length_cons]
      omega
    · intro _
      exact ⟨s, rfl⟩

/-- C10: with the same multiset of image records and the same
correspondence graph, GetStatsString returns the same string whatever
the iteration order of the image mapping, because each statistic is
computed from sorted vectors and the pairwise loop visits every
unordered identifier pair exactly once. -/
theorem stats_string_order_invariant (c1 c2 : DatabaseCache)
    (hperm : c1.images_.Perm c2.images_)
    (hgraph : c1.correspondence_graph_ = c2.correspondence_graph_)
    (_htwo : 2 ≤ c1.NumImages) :
    c1.GetStatsString = c2.GetStatsString := by
  have hobs : sortedNat (obsList c1) = sortedNat (obsList c2) :=
    sortedNat_perm_eq (hperm.map _)
  have hids : (c1.images_.map Prod.fst).Perm (c2.images_.map Prod.fst) := hperm.map _
  have hpc :
      sortedNat (pairCounts c1.correspondence_graph_ (c1.images_.map Prod.fst)) =
        sortedNat (pairCounts c2.correspondence_graph_ (c2.images_.map Prod.fst)) := by
    rw [hgraph]
    exact sortedNat_perm_eq (pairCounts_perm _ hids)
  rw [DatabaseCache.GetStatsString, DatabaseCache.GetStatsString, hobs, hpc]

/-- Witness for C10: two caches holding the same two images in swapped
order and the same one-edge graph produce the same statistics
string. -/
theorem stats_string_order_invariant_witness :
    cacheTwo1.GetStatsString = cacheTwo2.GetStatsString :=
  stats_string_order_invariant cacheTwo1 cacheTwo2 (by decide) (by decide) (by decide)

end colmap
